import Mathlib

/-!
Verification development for the retail stock replenishment column-generation
solver (`src/column_generation.py`).  The Python code is shallowly embedded:
pure computations become Lean functions over `Nat`/`Int`/`ℚ`, the external
LP/MIP solver is abstracted as oracle parameters (the objective value and the
variable assignment it returns), and Python runtime errors (ZeroDivisionError,
the never-raised infeasibility signal) are made explicit with `Except`.
-/

namespace Replenish

/-- Variable domain category handed to the LP/MIP backend
(PuLP's `cat=` argument: `"Continuous"`, `"Integer"`, `"Binary"`). -/
inductive VCat
  | continuous
  | integer
  | binary
deriving DecidableEq, Repr

/-- `ReplenishmentConfig` from `generate_instances.py`, restricted to the
fields `column_generation.py` reads.  Per-product dictionaries become
functions from the product index. -/
structure Config where
  num_stores : Nat
  num_products : Nat
  time_horizon : Nat
  ordering_cost : Nat → ℚ
  holding_cost : Nat → ℚ
  shortage_cost : Nat → ℚ
  min_order_qty : Nat → Nat
  case_pack_size : Nat → Nat

/-- A problem instance: the dict returned by `generate_instance`
(`config`, `demand[(s,p,t)]`, `initial_inventory[(s,p)]`). -/
structure Instance where
  cfg : Config
  demand : Nat → Nat → Nat → Nat
  initial_inventory : Nat → Nat → Nat

/-- One column of the pool: the dict built in `_initialize_columns` /
`pricing_problem`.  `orders` holds per-day case-pack counts (rationals,
because pricing stores solver `varValue`s); the pricing dict carries no
`shortage` key, hence the `Option`. -/
structure Column where
  store : Nat
  product : Nat
  orders : List ℚ
  shortage : Option (List ℚ)
  cost : ℚ
deriving DecidableEq, Repr, Inhabited

/-- `math.ceil(a / b)` for non-negative integers as Python computes it in
`_initialize_columns` (Python raises `ZeroDivisionError` on `b = 0`; the
config prescribes positive case-pack sizes, and the value at `b = 0` is
never used under that assumption). -/
def ceilDiv (a b : Nat) : Nat := (a + b - 1) / b

/-- Day-by-day simulation of the greedy-cover seed plan
(`_initialize_columns`, first column): walk the demand list with running
inventory `inv`; when demand exceeds inventory order
`max (ceil (needed / case_pack_size)) min_order_qty` packs; subtract demand,
clip inventory at zero and record the residual as shortage.  Each produced
entry is `(packs, shortage, end-of-day inventory)`; the second component of
the result is the inventory left after the last day (the value the Python
variable `inv` holds when the loop ends). -/
def greedySim (cps moq : Nat) : List Nat → Int → List (Nat × Nat × Int) × Int
  | [], inv => ([], inv)
  | d :: ds, inv =>
    let needed : Int := max 0 ((d : Int) - inv)
    let packs : Nat :=
      if 0 < needed then max (ceilDiv needed.toNat cps) moq else 0
    let inv1 : Int := inv + (packs : Int) * (cps : Int) - (d : Int)
    let short : Nat := if inv1 < 0 then (-inv1).toNat else 0
    let inv2 : Int := if inv1 < 0 then 0 else inv1
    let rest := greedySim cps moq ds inv2
    ((packs, short, inv2) :: rest.1, rest.2)

/-- The greedy-cover seed column for one `(store, product)` pair, cost
computed exactly as the source does: the generator expression
`ordering_cost*(1 if orders[t]>0 else 0) + holding_cost*inv +
shortage_cost*shortage[t]` is summed over `t`, where `inv` is the single
Python variable left over from the simulation loop — i.e. the
end-of-horizon inventory, charged on every day. -/
def greedyColumn (inst : Instance) (s p : Nat) : Column :=
  let cfg := inst.cfg
  let H := cfg.time_horizon
  let sim := greedySim (cfg.case_pack_size p) (cfg.min_order_qty p)
      ((List.range H).map (fun t => inst.demand s p t))
      ((inst.initial_inventory s p : Int))
  let orders : List Nat := sim.1.map (fun e => e.1)
  let shortage : List Nat := sim.1.map (fun e => e.2.1)
  let total_cost : ℚ := ∑ t in Finset.range H,
      ((if 0 < orders.getD t 0 then cfg.ordering_cost p else 0) +
        cfg.holding_cost p * (sim.2 : ℚ) +
        cfg.shortage_cost p * (shortage.getD t 0 : ℚ))
  { store := s, product := p,
    orders := orders.map (fun n : Nat => (n : ℚ)),
    shortage := some (shortage.map (fun n : Nat => (n : ℚ))),
    cost := total_cost }

/-- Modelled from the spec sentence for claim C4 (the code itself charges the
final inventory on every day instead): `cost = Σ over days of
(ordering_cost if an order was placed that day) + holding_cost * end-of-day
inventory + shortage_cost * shortage`, with the end-of-day inventories taken
from the day-by-day simulation of the plan. -/
def greedySpecCost (inst : Instance) (s p : Nat) : ℚ :=
  let cfg := inst.cfg
  let sim := greedySim (cfg.case_pack_size p) (cfg.min_order_qty p)
      ((List.range cfg.time_horizon).map (fun t => inst.demand s p t))
      ((inst.initial_inventory s p : Int))
  (sim.1.map (fun e =>
      (if 0 < e.1 then cfg.ordering_cost p else 0) +
        cfg.holding_cost p * (e.2.2 : ℚ) +
        cfg.shortage_cost p * (e.2.1 : ℚ))).sum

/-- The "no orders" seed column (`_initialize_columns`, second column):
never orders, all demand becomes shortage, cost is total shortage cost. -/
def zeroColumn (inst : Instance) (s p : Nat) : Column :=
  let cfg := inst.cfg
  let H := cfg.time_horizon
  { store := s, product := p,
    orders := List.replicate H (0 : ℚ),
    shortage := some ((List.range H).map (fun t => (inst.demand s p t : ℚ))),
    cost := ∑ t in Finset.range H, cfg.shortage_cost p * (inst.demand s p t : ℚ) }

/-- `_initialize_columns`: for every store and product (in enumeration
order) append the greedy column and then the zero-order column. -/
def initColumns (inst : Instance) : List Column :=
  (List.range inst.cfg.num_stores).flatMap (fun s =>
    (List.range inst.cfg.num_products).flatMap (fun p =>
      [greedyColumn inst s p, zeroColumn inst s p]))

/-- Concrete 1-store, 1-product, 1-day instance: initial inventory 5 already
covers the single day's demand of 5, so both seed columns order nothing. -/
def cfg5 : Config :=
  { num_stores := 1, num_products := 1, time_horizon := 1,
    ordering_cost := fun _ => 10, holding_cost := fun _ => 1,
    shortage_cost := fun _ => 100,
    min_order_qty := fun _ => 1, case_pack_size := fun _ => 5 }

def I5 : Instance :=
  { cfg := cfg5, demand := fun _ _ _ => 5, initial_inventory := fun _ _ => 5 }

/-- Concrete 1-store, 1-product, 2-day instance for the greedy-cost claim:
demand `[6, 4]`, zero initial inventory, case packs of 5.  The greedy plan
orders 2 packs on day 0, ends day 0 with 4 units and the horizon with 0. -/
def cfg4 : Config :=
  { num_stores := 1, num_products := 1, time_horizon := 2,
    ordering_cost := fun _ => 10, holding_cost := fun _ => 1,
    shortage_cost := fun _ => 100,
    min_order_qty := fun _ => 1, case_pack_size := fun _ => 5 }

def I4 : Instance :=
  { cfg := cfg4, demand := fun _ _ t => if t = 0 then 6 else 4,
    initial_inventory := fun _ _ => 0 }

/-- Claim C4 (code bug).  On instance `I4` the greedy plan is: order 2 packs
(10 units) on day 0, end day 0 with inventory 4, end day 1 with inventory 0,
no shortage.  The claimed (spec) cost — per-day end-of-day holding — is
`10 + 1*4 + 0 = 14`, but the code charges `holding_cost * inv` with `inv`
the end-of-horizon inventory (0 here) on every day and returns `10`. -/
theorem greedy_cost_charges_final_inventory :
    (greedyColumn I4 0 0).cost = 10 ∧ greedySpecCost I4 0 0 = 14 ∧
      (greedyColumn I4 0 0).cost ≠ greedySpecCost I4 0 0 := by
  with_unfolding_all decide

/-! ## The restricted master problem built by `solve_rmp` / `generate_schedule`

`solve_rmp` hands PuLP one `lambda_i` variable per column with `lowBound=0`
and `cat="Binary"`, objective `Σ cost_i·λ_i`, and one `>=` demand constraint
named `Demand_{s}_{p}_{t}` per (store, product, day); it then reads one dual
value per constraint (`rmp.constraints[c].pi`).  The embedding records the
declared LP verbatim (variables, bounds, categories, constraint keys,
coefficient rows, right-hand sides); the external solver is out of scope. -/

/-- One `>=` demand-covering constraint: key `(s, p, t)` (the data encoded
in the Python constraint name `Demand_{s}_{p}_{t}`), per-column
left-hand-side coefficients `orders_i[t]` (zero for columns of other pairs),
and right-hand side `demand(s,p,t)`. -/
structure LinConstr where
  key : Nat × Nat × Nat
  coeffs : List ℚ
  rhs : ℚ
deriving DecidableEq, Repr

/-- The LP/MIP structure handed to the external solver. -/
structure RmpLP where
  varCats : List VCat
  varLowBounds : List (Option ℚ)
  objCoeffs : List ℚ
  constrs : List LinConstr
deriving Repr

/-- Enumeration order of the demand constraints: stores, then products, then
days — exactly the nesting of the three `for` loops in `solve_rmp` and
`generate_schedule`. -/
def allTriples (cfg : Config) : List (Nat × Nat × Nat) :=
  (List.range cfg.num_stores).flatMap (fun s =>
    (List.range cfg.num_products).flatMap (fun p =>
      (List.range cfg.time_horizon).map (fun t => (s, p, t))))

/-- The demand constraint for one `(s,p,t)`:
`Σ_{i : col i belongs to (s,p)} orders_i[t]·λ_i ≥ demand(s,p,t)`. -/
def demandConstr (inst : Instance) (cols : List Column)
    (spt : Nat × Nat × Nat) : LinConstr :=
  { key := spt,
    coeffs := cols.map (fun c =>
      if c.store = spt.1 ∧ c.product = spt.2.1 then c.orders.getD spt.2.2 0 else 0),
    rhs := (inst.demand spt.1 spt.2.1 spt.2.2 : ℚ) }

/-- The RMP as `solve_rmp` declares it during the iterations:
`LpVariable.dicts("lambda", range(len(columns)), lowBound=0, cat="Binary")`.
The duals `solve_rmp` returns are read off this LP's constraints, one per
constraint, so their keys are exactly `constrs.map key`. -/
def solve_rmp_lp (inst : Instance) (cols : List Column) : RmpLP :=
  { varCats := cols.map (fun _ => VCat.binary),
    varLowBounds := cols.map (fun _ => some (0 : ℚ)),
    objCoeffs := cols.map (fun c => c.cost),
    constrs := (allTriples inst.cfg).map (demandConstr inst cols) }

/-- The final RMP declared by `generate_schedule`:
same constraints, but `cat="Integer"` (and unnamed constraints). -/
def final_rmp_lp (inst : Instance) (cols : List Column) : RmpLP :=
  { varCats := cols.map (fun _ => VCat.integer),
    varLowBounds := cols.map (fun _ => some (0 : ℚ)),
    objCoeffs := cols.map (fun c => c.cost),
    constrs := (allTriples inst.cfg).map (demandConstr inst cols) }

lemma map_const_eq {α β : Type} (l : List α) (b : β) :
    l.map (fun _ => b) = List.replicate l.length b := by
  induction l with
  | nil => rfl
  | cons x xs ih => simp [List.replicate, ih]

/-- Claim C1, counterexample: the iteration RMP's weight variables are not
continuous — on the concrete seeded instance `I5` every `lambda_i` is
declared with `cat="Binary"`. -/
theorem rmp_lambda_vars_not_continuous :
    ¬ ∀ v ∈ (solve_rmp_lp I5 (initColumns I5)).varCats, v = VCat.continuous := by
  with_unfolding_all decide

/-- Claim C1, amended: `solve_rmp` declares one weight variable per column
with lower bound 0 but category Binary (not continuous); the final solve in
`generate_schedule` declares them with category Integer; and the demand
constraints (whose duals `solve_rmp` returns, one per constraint) are keyed
exactly by the (store, product, day) triples. -/
theorem rmp_lambda_binary_integer_duals_keyed (inst : Instance) (cols : List Column) :
    (solve_rmp_lp inst cols).varCats = List.replicate cols.length VCat.binary ∧
    (solve_rmp_lp inst cols).varLowBounds = List.replicate cols.length (some (0 : ℚ)) ∧
    (solve_rmp_lp inst cols).constrs.map (fun c => c.key) = allTriples inst.cfg ∧
    (final_rmp_lp inst cols).varCats = List.replicate cols.length VCat.integer := by
  refine ⟨map_const_eq cols _, map_const_eq cols _, ?_, map_const_eq cols _⟩
  simp only [solve_rmp_lp, List.map_map]
  have h : ((fun c : LinConstr => c.key) ∘ demandConstr inst cols) = id :=
    funext (fun spt => rfl)
  rw [h, List.map_id]

/-! ## Feasibility of the seeded RMP (claim C5) -/

/-- Left-hand side of the demand constraint for `(s,p,t)` under a weight
assignment `lam`: `lpSum(col['orders'][t] * lambda_vars[i] for i, col in
enumerate(columns) if col['store'] == s and col['product'] == p)`.
The auxiliary index `i` tracks Python's `enumerate`. -/
def pairDayLHSAux (cols : List Column) (lam : Nat → ℚ) (s p t i : Nat) : ℚ :=
  match cols with
  | [] => 0
  | c :: rest =>
    (if c.store = s ∧ c.product = p then c.orders.getD t 0 * lam i else 0) +
      pairDayLHSAux rest lam s p t (i + 1)

def pairDayLHS (cols : List Column) (lam : Nat → ℚ) (s p t : Nat) : ℚ :=
  pairDayLHSAux cols lam s p t 0

/-- The RMP relaxation over `cols` is feasible: some non-negative weights
satisfy every demand covering constraint.  (This is the weakest reading of
the claim — weights are not even restricted to the binary domain the code
actually declares, which only makes feasibility easier.) -/
def rmpFeasible (inst : Instance) (cols : List Column) : Prop :=
  ∃ lam : Nat → ℚ, (∀ i, 0 ≤ lam i) ∧
    ∀ s p t, s < inst.cfg.num_stores → p < inst.cfg.num_products →
      t < inst.cfg.time_horizon →
      (inst.demand s p t : ℚ) ≤ pairDayLHS cols lam s p t

lemma pairDayLHSAux_eq_zero (cols : List Column) (lam : Nat → ℚ) (s p t : Nat)
    (h : ∀ c ∈ cols, c.store = s → c.product = p → c.orders.getD t 0 = 0) :
    ∀ i, pairDayLHSAux cols lam s p t i = 0 := by
  induction cols with
  | nil => intro i; rfl
  | cons c rest ih =>
    intro i
    have hrest := ih (fun c' hc' => h c' (List.mem_cons_of_mem _ hc'))
    by_cases hc : c.store = s ∧ c.product = p
    · have hz := h c (List.mem_cons_self _ _) hc.1 hc.2
      rw [pairDayLHSAux, if_pos hc, hz, zero_mul, zero_add]
      exact hrest _
    · rw [pairDayLHSAux, if_neg hc, zero_add]
      exact hrest _

/-- Claim C5, counterexample: on `I5` (demand 5 on the single day, initial
inventory 5) both seed columns have `orders = [0]`, so the single demand
constraint reads `0 ≥ 5` for every choice of weights: the seeded RMP is
infeasible, and in particular no "sufficiently large lambda" on the
zero-order fallback column can cover the demand. -/
theorem seeded_rmp_not_always_feasible : ¬ rmpFeasible I5 (initColumns I5) := by
  rintro ⟨lam, -, hcon⟩
  have h5 := hcon 0 0 0 one_pos one_pos one_pos
  have hz : pairDayLHS (initColumns I5) lam 0 0 0 = 0 := by
    apply pairDayLHSAux_eq_zero
    intro c hc _ _
    have hcols : initColumns I5 = [greedyColumn I5 0 0, zeroColumn I5 0 0] := by
      set_option maxRecDepth 8000 in with_unfolding_all decide
    rw [hcols] at hc
    simp only [List.mem_cons, List.not_mem_nil, or_false] at hc
    rcases hc with hc | hc
    · subst hc; with_unfolding_all decide
    · subst hc; with_unfolding_all decide
  rw [hz] at h5
  have : ((I5.demand 0 0 0 : ℚ)) = 5 := by norm_num [I5]
  rw [this] at h5
  norm_num at h5

lemma getD_replicate_zero (n t : Nat) : (List.replicate n (0 : ℚ)).getD t 0 = 0 := by
  induction n generalizing t with
  | zero => rfl
  | succ m ih =>
    cases t with
    | zero => rfl
    | succ t' => exact ih t'

lemma mem_initColumns (inst : Instance) (c : Column) (hc : c ∈ initColumns inst) :
    ∃ s p, c = greedyColumn inst s p ∨ c = zeroColumn inst s p := by
  unfold initColumns at hc
  rw [List.mem_flatMap] at hc
  obtain ⟨s, -, hc⟩ := hc
  rw [List.mem_flatMap] at hc
  obtain ⟨p, -, hc⟩ := hc
  simp only [List.mem_cons, List.not_mem_nil, or_false] at hc
  rcases hc with hc | hc
  · exact ⟨s, p, Or.inl hc⟩
  · exact ⟨s, p, Or.inr hc⟩

/-- Claim C5, amended: the zero-order fallback column contributes `0` to
every demand constraint, so it can never cover positive demand no matter
how large its weight; whenever some `(s,p,t)` has positive demand and the
greedy seed column for `(s,p)` places no order on day `t` (because running
inventory already covered the demand), the RMP seeded by
`_initialize_columns` is infeasible. -/
theorem seeded_rmp_feasibility_conditional (inst : Instance) (s p t : Nat)
    (hs : s < inst.cfg.num_stores) (hp : p < inst.cfg.num_products)
    (ht : t < inst.cfg.time_horizon)
    (hgreedy : (greedyColumn inst s p).orders.getD t 0 = 0)
    (hd : 0 < inst.demand s p t) :
    (zeroColumn inst s p).orders.getD t 0 = 0 ∧
      ¬ rmpFeasible inst (initColumns inst) := by
  constructor
  · exact getD_replicate_zero _ _
  rintro ⟨lam, -, hcon⟩
  have hle := hcon s p t hs hp ht
  have hz : pairDayLHS (initColumns inst) lam s p t = 0 := by
    apply pairDayLHSAux_eq_zero
    intro c hc hcs hcp
    obtain ⟨s', p', hc'⟩ := mem_initColumns inst c hc
    rcases hc' with hc' | hc'
    · have hs' : s' = s := by rw [hc'] at hcs; exact hcs
      have hp' : p' = p := by rw [hc'] at hcp; exact hcp
      rw [hc', hs', hp']; exact hgreedy
    · have := getD_replicate_zero inst.cfg.time_horizon t
      rw [hc']; exact this
  rw [hz] at hle
  have : (0 : ℚ) < (inst.demand s p t : ℚ) := by exact_mod_cast hd
  linarith

/-- Witness for the amended C5 at the concrete instance `I5`. -/
theorem seeded_rmp_feasibility_conditional_witness :
    (zeroColumn I5 0 0).orders.getD 0 0 = 0 ∧
      ¬ rmpFeasible I5 (initColumns I5) :=
  seeded_rmp_feasibility_conditional I5 0 0 0 one_pos one_pos one_pos
    (by with_unfolding_all decide) (by norm_num [I5])

/-! ## The pricing subproblem (`pricing_problem`)

For one `(s,p)` pair the subproblem has per-day variables `x_t` (integer
case-packs, `lowBound=0`) and `y_t` (binary), objective
`Σ_t (ordering_cost·y_t + holding_cost·x_t·case_pack_size) − Σ_t duals(s,p,t)·x_t`,
and constraints `x_t ≤ 100·y_t`, `x_t ≥ min_order_qty·y_t`.  The external
MIP solver is abstracted by the assignment `(xv, yv)` it returns: PuLP's
`value(sp.objective)` evaluates the objective expression at that
assignment, which is what the `< -1e-5` test and the emitted column read. -/

/-- `value(sp.objective)` at the returned assignment; `duals t` stands for
`duals.get(f"Demand_{s}_{p}_{t}", 0)` for the fixed pair `(s,p)`. -/
def pricingObjVal (cfg : Config) (p : Nat) (duals : Nat → ℚ) (xv yv : Nat → ℚ) : ℚ :=
  (∑ t in Finset.range cfg.time_horizon,
      (cfg.ordering_cost p * yv t + cfg.holding_cost p * xv t * (cfg.case_pack_size p : ℚ))) -
    ∑ t in Finset.range cfg.time_horizon, duals t * xv t

/-- The `cost` entry of a column emitted by `pricing_problem`: the original
(non-dual-adjusted) cost terms re-evaluated at the assignment. -/
def pricingCost (cfg : Config) (p : Nat) (xv yv : Nat → ℚ) : ℚ :=
  ∑ t in Finset.range cfg.time_horizon,
    (cfg.ordering_cost p * yv t + cfg.holding_cost p * xv t * (cfg.case_pack_size p : ℚ))

/-- The column `pricing_problem` emits for `(s,p)` — `some` exactly when
`value(sp.objective) < -1e-5`, with `orders = [x[t].varValue ...]` and the
recomputed cost; `none` otherwise (the pair contributes nothing). -/
def pricingEmit (cfg : Config) (s p : Nat) (duals xv yv : Nat → ℚ) : Option Column :=
  if pricingObjVal cfg p duals xv yv < -(1/100000) then
    some { store := s, product := p,
           orders := (List.range cfg.time_horizon).map xv,
           shortage := none,
           cost := pricingCost cfg p xv yv }
  else none

/-- The constraints of the pricing subproblem, satisfied by any feasible
assignment the MIP solver returns: `x_t` a non-negative integer,
`y_t` binary, `x_t ≤ 100·y_t` (BigM) and `x_t ≥ min_order_qty·y_t` (MOQ). -/
def pricingFeasibleAssign (cfg : Config) (p : Nat) (xv yv : Nat → ℚ) : Prop :=
  ∀ t < cfg.time_horizon,
    (∃ n : ℕ, xv t = (n : ℚ)) ∧ (yv t = 0 ∨ yv t = 1) ∧
      xv t ≤ 100 * yv t ∧ (cfg.min_order_qty p : ℚ) * yv t ≤ xv t

lemma range_map_getD (H t : Nat) (f : Nat → ℚ) (ht : t < H) :
    ((List.range H).map f).getD t 0 = f t := by
  rw [List.getD_eq_getElem?_getD, List.getElem?_map, List.getElem?_range ht]
  rfl

lemma pricingEmit_orders_getD (cfg : Config) (s p : Nat) (duals xv yv : Nat → ℚ)
    (c : Column) (hc : pricingEmit cfg s p duals xv yv = some c)
    (t : Nat) (ht : t < cfg.time_horizon) : c.orders.getD t 0 = xv t := by
  unfold pricingEmit at hc
  by_cases h : pricingObjVal cfg p duals xv yv < -(1/100000)
  · rw [if_pos h] at hc
    cases hc
    exact range_map_getD _ _ _ ht
  · rw [if_neg h] at hc; cases hc

/-- Claim C6: a column emitted by `pricing_problem` has, at creation,
reduced cost `cost − Σ_t duals(s,p,t)·orders[t]` strictly below `−1e-5`
(the emitted cost and orders reproduce exactly the objective value that
passed the test), and a pair whose subproblem objective value is not below
`−1e-5` emits no column that round. -/
theorem pricing_reduced_cost_sound (cfg : Config) (s p : Nat)
    (duals xv yv : Nat → ℚ) :
    (∀ c, pricingEmit cfg s p duals xv yv = some c →
      c.cost - (∑ t in Finset.range cfg.time_horizon, duals t * c.orders.getD t 0)
        < -(1/100000)) ∧
    (¬ pricingObjVal cfg p duals xv yv < -(1/100000) →
      pricingEmit cfg s p duals xv yv = none) := by
  constructor
  · intro c hc
    have hcost : c.cost = pricingCost cfg p xv yv := by
      unfold pricingEmit at hc
      by_cases h : pricingObjVal cfg p duals xv yv < -(1/100000)
      · rw [if_pos h] at hc; cases hc; rfl
      · rw [if_neg h] at hc; cases hc
    have hlt : pricingObjVal cfg p duals xv yv < -(1/100000) := by
      by_contra h
      unfold pricingEmit at hc
      rw [if_neg h] at hc
      cases hc
    have hsum : (∑ t in Finset.range cfg.time_horizon, duals t * c.orders.getD t 0)
        = ∑ t in Finset.range cfg.time_horizon, duals t * xv t := by
      apply Finset.sum_congr rfl
      intro t ht
      rw [pricingEmit_orders_getD cfg s p duals xv yv c hc t (Finset.mem_range.mp ht)]
    rw [hcost, hsum]
    exact hlt
  · intro h
    unfold pricingEmit
    rw [if_neg h]

/-- Witness for C6: with horizon 1, `ordering_cost = 10`, `holding_cost = 1`,
`case_pack_size = 5`, dual 100 and assignment `x = 3, y = 1`, pricing emits
the column of cost 25 whose reduced cost is `25 − 300 = −275 < −1e-5`. -/
theorem pricing_reduced_cost_sound_witness :
    ({ store := 0, product := 0, orders := [3], shortage := none,
       cost := 25 } : Column).cost -
      (∑ t in Finset.range cfg5.time_horizon,
        (fun _ => (100 : ℚ)) t *
          ({ store := 0, product := 0, orders := [3], shortage := none,
             cost := 25 } : Column).orders.getD t 0) < -(1/100000) := by
  exact (pricing_reduced_cost_sound cfg5 0 0 (fun _ => 100) (fun _ => 3) (fun _ => 1)).1
    _ (by with_unfolding_all decide)

/-! ## MOQ compliance of every column (claim C8) -/

/-- Every non-zero per-day order quantity of the column is a whole number
of case-packs of at least `min_order_qty` of the column's product. -/
def moqCompliant (cfg : Config) (c : Column) : Prop :=
  ∀ o ∈ c.orders, o ≠ 0 → ∃ k : ℕ, o = (k : ℚ) ∧ cfg.min_order_qty c.product ≤ k

lemma greedySim_packs (cps moq : Nat) (ds : List Nat) (inv : Int) :
    ∀ e ∈ (greedySim cps moq ds inv).1, e.1 = 0 ∨ moq ≤ e.1 := by
  induction ds generalizing inv with
  | nil => intro e he; cases he
  | cons d rest ih =>
    intro e he
    rw [greedySim] at he
    simp only [List.mem_cons] at he
    rcases he with he | he
    · subst he
      dsimp only
      by_cases hn : 0 < max 0 ((d : Int) - inv)
      · rw [if_pos hn]
        exact Or.inr (le_max_right _ _)
      · rw [if_neg hn]
        exact Or.inl rfl
    · exact ih _ _ he

/-- Claim C8: every column that can ever be in the pool — a seed column
from `_initialize_columns`, or a column emitted by `pricing_problem` from a
feasible subproblem assignment — has every non-zero order quantity equal to
a whole number of case-packs that is at least `min_order_qty` of its
product. -/
theorem columns_moq_compliant (inst : Instance) (c : Column)
    (h : c ∈ initColumns inst ∨
      ∃ s p duals xv yv, pricingFeasibleAssign inst.cfg p xv yv ∧
        pricingEmit inst.cfg s p duals xv yv = some c) :
    moqCompliant inst.cfg c := by
  rcases h with h | ⟨s, p, duals, xv, yv, hfeas, hemit⟩
  · obtain ⟨s, p, hc⟩ := mem_initColumns inst c h
    rcases hc with hc | hc
    · subst hc
      intro o ho hne
      have horef : (greedyColumn inst s p).orders =
          ((greedySim (inst.cfg.case_pack_size p) (inst.cfg.min_order_qty p)
              ((List.range inst.cfg.time_horizon).map (fun t => inst.demand s p t))
              ((inst.initial_inventory s p : Int))).1.map (fun e => e.1)).map
            (fun n : Nat => (n : ℚ)) := by simp only [greedyColumn]
      rw [horef] at ho
      obtain ⟨k, hk, hko⟩ := List.mem_map.mp ho
      obtain ⟨e, he, hek⟩ := List.mem_map.mp hk
      refine ⟨k, hko.symm, ?_⟩
      rcases greedySim_packs _ _ _ _ e he with hz | hm
      · exfalso
        apply hne
        rw [← hko, ← hek, hz]
        norm_num
      · have hprod : (greedyColumn inst s p).product = p := rfl
        rw [hprod, ← hek]
        exact hm
    · subst hc
      intro o ho hne
      exfalso
      apply hne
      unfold zeroColumn at ho
      simp only [List.mem_replicate] at ho
      exact ho.2
  · intro o ho hne
    have hp : c.product = p := by
      unfold pricingEmit at hemit
      by_cases hlt : pricingObjVal inst.cfg p duals xv yv < -(1/100000)
      · rw [if_pos hlt] at hemit; cases hemit; rfl
      · rw [if_neg hlt] at hemit; cases hemit
    have horders : c.orders = (List.range inst.cfg.time_horizon).map xv := by
      unfold pricingEmit at hemit
      by_cases hlt : pricingObjVal inst.cfg p duals xv yv < -(1/100000)
      · rw [if_pos hlt] at hemit; cases hemit; rfl
      · rw [if_neg hlt] at hemit; cases hemit
    rw [horders] at ho
    simp only [List.mem_map, List.mem_range] at ho
    obtain ⟨t, ht, hxo⟩ := ho
    obtain ⟨⟨n, hn⟩, hy, hbigm, hmoq⟩ := hfeas t ht
    refine ⟨n, by rw [← hxo, hn], ?_⟩
    rcases hy with hy0 | hy1
    · exfalso
      apply hne
      rw [hy0, mul_zero] at hbigm
      have h0 : (0 : ℚ) ≤ xv t := by
        rw [hn]; exact_mod_cast Nat.zero_le n
      rw [← hxo]
      linarith
    · rw [hy1, mul_one] at hmoq
      rw [hn] at hmoq
      rw [hp]
      exact_mod_cast hmoq

/-- Witness for C8: the pricing column from the C6 witness assignment
(`x = 3, y = 1`, dual 100 on `cfg5`, whose `min_order_qty` is 1) is
MOQ-compliant. -/
theorem columns_moq_compliant_witness :
    moqCompliant cfg5
      { store := 0, product := 0, orders := [3], shortage := none, cost := 25 } := by
  have hfeas : pricingFeasibleAssign cfg5 0 (fun _ => 3) (fun _ => 1) := by
    intro t ht
    exact ⟨⟨3, by norm_num⟩, Or.inr rfl, by norm_num, by norm_num [cfg5]⟩
  exact columns_moq_compliant I5 _
    (Or.inr ⟨0, 0, fun _ => 100, fun _ => 3, fun _ => 1, hfeas,
      by with_unfolding_all decide⟩)

/-! ## The column-generation loop (`solve`)

The loop is embedded with the two solver-dependent steps abstracted as
oracles on the current pool: `R cols` is the objective value the relaxed
RMP solve reports (`obj`), and `Pr cols` is the list of new columns
`pricing_problem` returns.  Python's `float('inf')` initial value of
`best_lower_bound` is `none`; Python's raising division is `pyDiv`;
the `rmp` name being unbound when the loop body never ran is `nameError`. -/

/-- Python runtime failures that `solve` can raise. -/
inductive PyErr
  | zeroDivisionError
  | nameError
deriving DecidableEq, Repr

/-- Python division: raises `ZeroDivisionError` on a zero denominator. -/
def pyDiv (a b : ℚ) : Except PyErr ℚ :=
  if b = 0 then .error .zeroDivisionError else .ok (a / b)

/-- The loop state of `solve`: the pool, `best_lower_bound`
(`none` = `float('inf')`), the objective of the last RMP solve (`none` if
`solve_rmp` was never called, in which case reading `rmp` after the loop
raises `NameError`), and the number of RMP/pricing rounds executed. -/
structure LoopState where
  columns : List Column
  best_lower_bound : Option ℚ
  last_obj : Option ℚ
  rounds : Nat
deriving Repr

/-- One-to-one image of the `while i < max_iter` body of `solve`, with
`fuel` the remaining iteration budget `max_iter - i`: solve the RMP, run
pricing; stop if no new columns; otherwise extend the pool, update
`best_lower_bound`, compute
`optimality_gap = (obj - best_lower_bound) / obj` (raising on `obj = 0`),
stop if the gap is below the threshold, else continue. -/
def cgLoop (R : List Column → ℚ) (Pr : List Column → List Column) (θ : ℚ) :
    Nat → LoopState → Except PyErr LoopState
  | 0, st => .ok st
  | fuel + 1, st =>
    let obj := R st.columns
    let newCols := Pr st.columns
    if newCols.isEmpty then
      .ok { st with last_obj := some obj, rounds := st.rounds + 1 }
    else
      let blb : ℚ := match st.best_lower_bound with
        | none => obj
        | some b => min b obj
      match pyDiv (obj - blb) obj with
      | .error e => .error e
      | .ok gap =>
        if gap < θ then
          .ok { columns := st.columns ++ newCols, best_lower_bound := some blb,
                last_obj := some obj, rounds := st.rounds + 1 }
        else
          cgLoop R Pr θ fuel
            { columns := st.columns ++ newCols, best_lower_bound := some blb,
              last_obj := some obj, rounds := st.rounds + 1 }

/-- `solve`: run the loop from the seeded pool, then build the final
schedule (`G` abstracts `generate_schedule` over the final pool) and
compute the final optimality gap
`(value(rmp.objective) - best_lower_bound) / value(rmp.objective)` — a
second unguarded division.  When `best_lower_bound` is still `float('inf')`
Python evaluates `(obj - inf) / obj`, which raises exactly when `obj = 0`
(float division by zero) and otherwise yields `-inf` without raising.
Returns the schedule, the final pool and the number of rounds. -/
def solveModel (R : List Column → ℚ) (Pr : List Column → List Column)
    (G : List Column → List Column) (θ : ℚ) (maxIter : Nat)
    (cols0 : List Column) : Except PyErr (List Column × List Column × Nat) :=
  match cgLoop R Pr θ maxIter
      { columns := cols0, best_lower_bound := none, last_obj := none, rounds := 0 } with
  | .error e => .error e
  | .ok st =>
    let sched := G st.columns
    match st.last_obj with
    | none => .error .nameError
    | some fo =>
      match st.best_lower_bound with
      | none =>
        if fo = 0 then .error .zeroDivisionError else .ok (sched, st.columns, st.rounds)
      | some b =>
        match pyDiv (fo - b) fo with
        | .error e => .error e
        | .ok _ => .ok (sched, st.columns, st.rounds)

/-- The number of RMP/pricing rounds a `solve` run executes
(`none` when the run raises). -/
def solveRounds (R : List Column → ℚ) (Pr : List Column → List Column)
    (G : List Column → List Column) (θ : ℚ) (maxIter : Nat)
    (cols0 : List Column) : Option Nat :=
  (solveModel R Pr G θ maxIter cols0).toOption.map (fun r => r.2.2)

/-- Claim C2: with the default threshold `1e-5`, whenever the first RMP
objective is non-zero (and at least one iteration is allowed), `solve`
executes exactly one RMP/pricing round: either pricing returns nothing and
the loop breaks, or `best_lower_bound` is set to the current objective
before the gap is computed, the gap is exactly `0 < 1e-5`, and the loop
breaks — a second round is never reached. -/
theorem solve_executes_one_round (R : List Column → ℚ)
    (Pr : List Column → List Column) (G : List Column → List Column)
    (maxIter : Nat) (cols0 : List Column)
    (hmax : 1 ≤ maxIter) (hobj : R cols0 ≠ 0) :
    solveRounds R Pr G (1 / 100000) maxIter cols0 = some 1 := by
  obtain ⟨fuel, rfl⟩ : ∃ f, maxIter = f + 1 :=
    ⟨maxIter - 1, (Nat.succ_pred_eq_of_pos hmax).symm⟩
  unfold solveRounds solveModel cgLoop
  by_cases hnew : (Pr cols0).isEmpty
  · rw [if_pos hnew]
    dsimp only
    rw [if_neg hobj]
    rfl
  · rw [if_neg hnew]
    dsimp only
    have hdiv : pyDiv (R cols0 - R cols0) (R cols0) = .ok 0 := by
      unfold pyDiv
      rw [if_neg hobj, sub_self, zero_div]
    rw [hdiv]
    dsimp only
    have hgap : (0 : ℚ) < 1 / 100000 := by norm_num
    rw [if_pos hgap]
    dsimp only
    have hdiv2 : pyDiv (R cols0 - R cols0) (R cols0) = .ok 0 := hdiv
    rw [hdiv2]
    rfl

/-- Witness for C2: a run with objective oracle constantly 7 and a pricing
oracle that keeps returning a column stops after exactly one round. -/
theorem solve_executes_one_round_witness :
    solveRounds (fun _ => (7 : ℚ)) (fun _ => [zeroColumn I5 0 0]) (fun _ => [])
      (1 / 100000) 1000 [greedyColumn I5 0 0] = some 1 :=
  solve_executes_one_round _ _ _ 1000 _ (by norm_num) (by norm_num)

/-- Concrete all-zero-demand instance (2 days): every seed column has cost
0 and the relaxed RMP optimum is 0. -/
def I0 : Instance :=
  { cfg := { num_stores := 1, num_products := 1, time_horizon := 2,
             ordering_cost := fun _ => 10, holding_cost := fun _ => 1,
             shortage_cost := fun _ => 100,
             min_order_qty := fun _ => 1, case_pack_size := fun _ => 5 },
    demand := fun _ _ _ => 0, initial_inventory := fun _ _ => 0 }

/-- Claim C10: when the relaxed RMP objective is 0, `solve` raises
`ZeroDivisionError` instead of returning the schedule, on every path: if
pricing returns new columns, the in-loop gap `(0 − 0)/0` raises; if pricing
returns nothing, the loop breaks with `best_lower_bound` still infinite and
the final gap `(0 − inf)/0` raises. -/
theorem solve_zero_objective_raises (R : List Column → ℚ)
    (Pr : List Column → List Column) (G : List Column → List Column)
    (maxIter : Nat) (cols0 : List Column)
    (hmax : 1 ≤ maxIter) (hobj : R cols0 = 0) :
    solveModel R Pr G (1 / 100000) maxIter cols0 = .error .zeroDivisionError := by
  obtain ⟨fuel, rfl⟩ : ∃ f, maxIter = f + 1 :=
    ⟨maxIter - 1, (Nat.succ_pred_eq_of_pos hmax).symm⟩
  unfold solveModel cgLoop
  by_cases hnew : (Pr cols0).isEmpty
  · rw [if_pos hnew]
    dsimp only
    rw [hobj, if_pos rfl]
  · rw [if_neg hnew]
    dsimp only
    have hdiv : pyDiv (R cols0 - R cols0) (R cols0) = .error .zeroDivisionError := by
      unfold pyDiv
      rw [if_pos hobj]
    rw [hdiv]

/-- Witness for C10 at the zero-demand instance `I0`: both seed columns
have cost 0 (so a relaxed RMP objective of 0 is attainable by selecting
nothing), and a `solve` run whose RMP oracle reports objective 0 on the
seeded pool raises `ZeroDivisionError`. -/
theorem solve_zero_objective_raises_witness :
    (∀ c ∈ initColumns I0, c.cost = 0) ∧
      solveModel (fun _ => 0) (fun _ => []) (fun _ => []) (1 / 100000) 1000
        (initColumns I0) = .error .zeroDivisionError :=
  ⟨by set_option maxRecDepth 8000 in with_unfolding_all decide,
   solve_zero_objective_raises _ _ _ 1000 _ (by norm_num) rfl⟩

/-- Claim C9: within one `solve` session the pool only grows — the initial
pool is a prefix of the pool any successful run ends with (each loop
iteration only executes `self.columns.extend(new_cols)`; `solve_rmp`,
`pricing_problem` and `generate_schedule` read the pool without writing it,
which the embedding reflects by passing the pool to the oracles `R`, `Pr`,
`G` read-only). -/
theorem solve_pool_append_only (R : List Column → ℚ)
    (Pr : List Column → List Column) (G : List Column → List Column)
    (θ : ℚ) (maxIter : Nat) (cols0 : List Column)
    (res : List Column × List Column × Nat)
    (hres : solveModel R Pr G θ maxIter cols0 = .ok res) :
    cols0 <+: res.2.1 := by
  have key : ∀ (fuel : Nat) (st st' : LoopState),
      cgLoop R Pr θ fuel st = .ok st' → st.columns <+: st'.columns := by
    intro fuel
    induction fuel with
    | zero =>
      intro st st' h
      cases h
      exact List.prefix_refl _
    | succ f ih =>
      intro st st' h
      rw [cgLoop] at h
      by_cases hnew : (Pr st.columns).isEmpty
      · rw [if_pos hnew] at h
        cases h
        exact List.prefix_refl _
      · rw [if_neg hnew] at h
        dsimp only at h
        rcases hdiv : pyDiv (R st.columns -
            (match st.best_lower_bound with
             | none => R st.columns
             | some b => min b (R st.columns))) (R st.columns) with e | gap
        · rw [hdiv] at h
          cases h
        · rw [hdiv] at h
          dsimp only at h
          by_cases hgap : gap < θ
          · rw [if_pos hgap] at h
            cases h
            exact List.prefix_append _ _
          · rw [if_neg hgap] at h
            exact (List.prefix_append _ _).trans (ih _ _ h)
  unfold solveModel at hres
  rcases hloop : cgLoop R Pr θ maxIter
      { columns := cols0, best_lower_bound := none, last_obj := none,
        rounds := 0 } with e | st
  · rw [hloop] at hres
    cases hres
  · rw [hloop] at hres
    have hpre : cols0 <+: st.columns := key _ _ _ hloop
    dsimp only at hres
    rcases hlast : st.last_obj with _ | fo
    · rw [hlast] at hres
      cases hres
    · rw [hlast] at hres
      dsimp only at hres
      rcases hblb : st.best_lower_bound with _ | b
      · rw [hblb] at hres
        dsimp only at hres
        by_cases hfo : fo = 0
        · rw [if_pos hfo] at hres
          cases hres
        · rw [if_neg hfo] at hres
          cases hres
          exact hpre
      · rw [hblb] at hres
        dsimp only at hres
        rcases hdiv : pyDiv (fo - b) fo with e | gap
        · rw [hdiv] at hres
          cases hres
        · rw [hdiv] at hres
          cases hres
          exact hpre

/-- Witness for C9: a concrete run that appends the zero column to a
one-column pool keeps the original pool as a prefix. -/
theorem solve_pool_append_only_witness :
    [greedyColumn I5 0 0] <+: [greedyColumn I5 0 0, zeroColumn I5 0 0] := by
  apply solve_pool_append_only (fun _ => (7 : ℚ)) (fun _ => [zeroColumn I5 0 0])
    (fun _ => []) (1 / 100000) 1000 [greedyColumn I5 0 0]
    ([], [greedyColumn I5 0 0, zeroColumn I5 0 0], 1)
  with_unfolding_all rfl

/-! ## The schedule builder (`generate_schedule`)

After the final integer RMP solve the code checks `final_rmp.status != 1`
but only prints `"No feasible solution found"` and falls through; it then
walks the columns with positive `lambda` value and, for each day with a
positive order quantity, updates the per-(store,product) inventory and
emits a row.  The external solver's outcome is abstracted by `status` (the
PuLP status code, 1 = optimal) and `lamVal i = value(lambda_vars[i])`
(`none` = Python `None`). -/

/-- One realised schedule row (the dict appended to `schedule`). -/
structure Row where
  store : Nat
  product : Nat
  day : Nat
  case_packs : ℚ
  units : ℚ
  days_inventory_left : ℚ
deriving DecidableEq, Repr, Inhabited

/-- `sum(demand[(s,p,t2)] for t2 in range(t+1, H))`. -/
def futureDemand (inst : Instance) (s p t : Nat) : Nat :=
  ∑ t2 in Finset.Ico (t + 1) inst.cfg.time_horizon, inst.demand s p t2

/-- The days-of-inventory metric computed for a row at day `t` with current
inventory `inv`: `min(H - t - 1, inv / (future_demand / (H - t - 1)))` when
future demand is positive, else `H - t - 1`. -/
def daysLeftMetric (inst : Instance) (s p t : Nat) (inv : ℚ) : ℚ :=
  let fut : ℚ := (futureDemand inst s p t : ℚ)
  let rem : ℚ := ((inst.cfg.time_horizon - t - 1 : Nat) : ℚ)
  if 0 < fut then min rem (inv / (fut / rem)) else rem

/-- `round(x, 1)`.  Python rounds binary floats half-to-even; on exact
rationals this is nearest-tenth with half rounded up — the two agree except
at exact ties, which no value in this development hits. -/
def roundTo1 (q : ℚ) : ℚ := ((round (10 * q) : ℤ) : ℚ) / 10

/-- The inner day loop body of the schedule builder: on a day where the
column orders a positive quantity, add the ordered units to the pair's
inventory, subtract that day's demand clipping at zero, and append a row
carrying the metric; on any other day nothing happens (note: that day's
demand is then never subtracted). -/
def schedDay (inst : Instance) (c : Column) (t : Nat)
    (acc : (Nat → Nat → ℚ) × List Row) : (Nat → Nat → ℚ) × List Row :=
  if 0 < c.orders.getD t 0 then
    let s := c.store
    let p := c.product
    let units := c.orders.getD t 0 * (inst.cfg.case_pack_size p : ℚ)
    let inv2 := max 0 (acc.1 s p + units - (inst.demand s p t : ℚ))
    (fun s' p' => if s' = s ∧ p' = p then inv2 else acc.1 s' p',
     acc.2 ++ [{ store := s, product := p, day := t,
                 case_packs := c.orders.getD t 0, units := units,
                 days_inventory_left := roundTo1 (daysLeftMetric inst s p t inv2) }])
  else acc

/-- `generate_schedule` after the final solve, as the code actually behaves:
`status` is inspected only for the printed warning — the schedule is built
and returned in every case, so an infeasible final RMP (`status ≠ 1`) is
never surfaced to the caller.  Columns are processed in pool order
(`for i in range(len(self.columns))`), each selected when
`value(lambda_vars[i])` is truthy and positive, and then all its days in
order. -/
def generate_schedule_model (inst : Instance) (cols : List Column)
    (status : Int) (lamVal : Nat → Option ℚ) : List Row :=
  (cols.enum.foldl
    (fun acc ic =>
      match lamVal ic.1 with
      | none => acc
      | some v =>
        if v ≠ 0 ∧ 0 < v then
          (List.range inst.cfg.time_horizon).foldl
            (fun a t => schedDay inst ic.2 t a) acc
        else acc)
    (fun s p => (inst.initial_inventory s p : ℚ), [])).2

/-- Claim C3 (code bug).  On `I5` every column of the pool contributes 0 to
the single demand constraint, so the final integer RMP (demand `0 ≥ 5`) is
infeasible for every weight assignment and the solver reports
`status = -1 ≠ 1`.  `generate_schedule` nevertheless returns normally with
a (here empty) schedule: the embedding's return type has no failure channel
because the code has none — the status check only prints. -/
theorem infeasible_final_rmp_not_signalled :
    (∀ lam : Nat → ℚ, pairDayLHS (initColumns I5) lam 0 0 0 = 0) ∧
      I5.demand 0 0 0 = 5 ∧
      generate_schedule_model I5 (initColumns I5) (-1) (fun _ => some 0) = [] := by
  refine ⟨?_, rfl, by with_unfolding_all decide⟩
  intro lam
  apply pairDayLHSAux_eq_zero
  intro c hc _ _
  have hcols : initColumns I5 = [greedyColumn I5 0 0, zeroColumn I5 0 0] := by
    set_option maxRecDepth 8000 in with_unfolding_all decide
  rw [hcols] at hc
  simp only [List.mem_cons, List.not_mem_nil, or_false] at hc
  rcases hc with hc | hc
  · subst hc; with_unfolding_all decide
  · subst hc; with_unfolding_all decide

/-! ## The forward inventory simulation and the days-of-inventory metric
(claim C7) -/

/-- Concrete 1-store, 1-product, 3-day instance: demand `[3, 9, 6]`,
initial inventory 4, case packs of 5.  The greedy seed column is
`orders = [0, 2, 1]`: day 0 is covered by initial inventory, so a selected
copy of that column makes the schedule builder skip day 0 entirely. -/
def I7 : Instance :=
  { cfg := { num_stores := 1, num_products := 1, time_horizon := 3,
             ordering_cost := fun _ => 10, holding_cost := fun _ => 1,
             shortage_cost := fun _ => 100,
             min_order_qty := fun _ => 1, case_pack_size := fun _ => 5 },
    demand := fun _ _ t => if t = 0 then 3 else if t = 1 then 9 else 6,
    initial_inventory := fun _ _ => 4 }

/-- Modelled from the spec wording of claim C7: simulate the selected
column's pair forward "applying orders in day order, subtracting demand,
clipping at zero" on **every** day, and emit a row (with the same
days-of-inventory metric) on each day the column orders. -/
def spec_forward_rows (inst : Instance) (c : Column) : List Row :=
  ((List.range inst.cfg.time_horizon).foldl
    (fun (acc : ℚ × List Row) t =>
      let o := c.orders.getD t 0
      let units := o * (inst.cfg.case_pack_size c.product : ℚ)
      let inv2 := max 0 (acc.1 + units - (inst.demand c.store c.product t : ℚ))
      (inv2,
       if 0 < o then
         acc.2 ++ [{ store := c.store, product := c.product, day := t,
                     case_packs := o, units := units,
                     days_inventory_left :=
                       roundTo1 (daysLeftMetric inst c.store c.product t inv2) }]
       else acc.2))
    ((inst.initial_inventory c.store c.product : ℚ), [])).2

/-- Claim C7, counterexample: on `I7` with the greedy column selected, the
code's simulation never subtracts day-0 or day-1 demand before the first
order day — at day 1 it holds inventory `4 + 10 − 9 = 5` and reports
`min(1, 5/6) ≈ 0.8` days left, while the claimed every-day simulation holds
`2` and reports `min(1, 2/6) ≈ 0.3`; the emitted schedules differ. -/
theorem schedule_sim_skips_non_order_days :
    ((generate_schedule_model I7 [greedyColumn I7 0 0] 1
        (fun _ => some 1)).getD 0 default).days_inventory_left = 4/5 ∧
      ((spec_forward_rows I7 (greedyColumn I7 0 0)).getD 0
        default).days_inventory_left = 3/10 ∧
      generate_schedule_model I7 [greedyColumn I7 0 0] 1 (fun _ => some 1) ≠
        spec_forward_rows I7 (greedyColumn I7 0 0) := by
  set_option maxRecDepth 8000 in with_unfolding_all decide

/-- The invariant behind the amended claim C7: every emitted row has a
positive case-pack count (rows exist only for order days), its units are
`case_packs · case_pack_size`, and its metric is `roundTo1` of
`daysLeftMetric` at some non-negative inventory — the inventory obtained by
adding the ordered units and subtracting only that day's demand, clipped at
zero; when the remaining-horizon demand is zero the metric equals the
number of remaining days. -/
def RowOk (inst : Instance) (r : Row) : Prop :=
  0 < r.case_packs ∧
    r.units = r.case_packs * (inst.cfg.case_pack_size r.product : ℚ) ∧
    (∃ inv : ℚ, 0 ≤ inv ∧
      r.days_inventory_left = roundTo1 (daysLeftMetric inst r.store r.product r.day inv)) ∧
    (futureDemand inst r.store r.product r.day = 0 →
      r.days_inventory_left =
        roundTo1 ((inst.cfg.time_horizon - r.day - 1 : Nat) : ℚ))

lemma foldl_preserve {α β : Type} (Q : α → Prop) (f : α → β → α) (l : List β)
    (a : α) (hstep : ∀ x b, Q x → Q (f x b)) (ha : Q a) : Q (l.foldl f a) := by
  induction l generalizing a with
  | nil => exact ha
  | cons x xs ih => exact ih _ (hstep _ _ ha)

lemma daysLeftMetric_of_no_future (inst : Instance) (s p t : Nat) (inv : ℚ)
    (hfut : futureDemand inst s p t = 0) :
    daysLeftMetric inst s p t inv = ((inst.cfg.time_horizon - t - 1 : Nat) : ℚ) := by
  unfold daysLeftMetric
  rw [hfut]
  norm_num

lemma schedDay_preserves (inst : Instance) (c : Column) (t : Nat)
    (acc : (Nat → Nat → ℚ) × List Row)
    (hinv : ∀ s p, 0 ≤ acc.1 s p) (hrows : ∀ r ∈ acc.2, RowOk inst r) :
    (∀ s p, 0 ≤ (schedDay inst c t acc).1 s p) ∧
      ∀ r ∈ (schedDay inst c t acc).2, RowOk inst r := by
  unfold schedDay
  by_cases ho : 0 < c.orders.getD t 0
  · rw [if_pos ho]
    dsimp only
    constructor
    · intro s' p'
      by_cases h : s' = c.store ∧ p' = c.product
      · rw [if_pos h]; exact le_max_left _ _
      · rw [if_neg h]; exact hinv s' p'
    · intro r hr
      rw [List.mem_append] at hr
      rcases hr with hr | hr
      · exact hrows r hr
      · rw [List.mem_singleton] at hr
        subst hr
        refine ⟨ho, rfl, ⟨_, le_max_left _ _, rfl⟩, ?_⟩
        intro hfut
        dsimp only
        rw [daysLeftMetric_of_no_future inst c.store c.product t _ hfut]
  · rw [if_neg ho]
    exact ⟨hinv, hrows⟩

/-- Claim C7, amended: the schedule builder touches the pair's inventory
only on days where a selected column places an order; on such a day it adds
the ordered units and subtracts that same day's demand, clipping at zero
(demand on non-order days is never subtracted).  Every emitted row reflects
that: positive case-packs, `units = case_packs·case_pack_size`, metric
`roundTo1 (daysLeftMetric …)` at a non-negative inventory, and metric equal
to the remaining horizon length when future demand is zero. -/
theorem schedule_rows_characterised (inst : Instance) (cols : List Column)
    (status : Int) (lamVal : Nat → Option ℚ) (r : Row)
    (hr : r ∈ generate_schedule_model inst cols status lamVal) :
    RowOk inst r := by
  unfold generate_schedule_model at hr
  have key := foldl_preserve
    (fun acc : (Nat → Nat → ℚ) × List Row =>
      (∀ s p, 0 ≤ acc.1 s p) ∧ ∀ r' ∈ acc.2, RowOk inst r')
    (fun acc ic =>
      match lamVal ic.1 with
      | none => acc
      | some v =>
        if v ≠ 0 ∧ 0 < v then
          (List.range inst.cfg.time_horizon).foldl
            (fun a t => schedDay inst ic.2 t a) acc
        else acc)
    cols.enum
    (fun s p => (inst.initial_inventory s p : ℚ), ([] : List Row))
    ?_ ?_
  · exact key.2 r hr
  · intro acc ic hacc
    dsimp only
    rcases hlv : lamVal ic.1 with _ | v
    · exact hacc
    · dsimp only
      by_cases hv : v ≠ 0 ∧ 0 < v
      · rw [if_pos hv]
        exact foldl_preserve
          (fun a : (Nat → Nat → ℚ) × List Row =>
            (∀ s p, 0 ≤ a.1 s p) ∧ ∀ r' ∈ a.2, RowOk inst r')
          (fun a t => schedDay inst ic.2 t a) (List.range inst.cfg.time_horizon)
          acc (fun a t ha => schedDay_preserves inst ic.2 t a ha.1 ha.2) hacc
      · rw [if_neg hv]
        exact hacc
  · constructor
    · intro s p
      dsimp only
      exact_mod_cast Nat.zero_le _
    · intro r' hr'
      dsimp only at hr'
      cases hr'

/-- Witness for the amended C7: the first row the builder emits on `I7`
(day 1, 2 case-packs, 10 units, 0.8 days of inventory left) satisfies the
characterisation. -/
theorem schedule_rows_characterised_witness :
    RowOk I7 { store := 0, product := 0, day := 1, case_packs := 2,
               units := 10, days_inventory_left := 4/5 } := by
  apply schedule_rows_characterised I7 [greedyColumn I7 0 0] 1 (fun _ => some 1)
  set_option maxRecDepth 8000 in with_unfolding_all decide

end Replenish
